import Mathlib

/-!
# Connectable: a transparent TCP proxy for containers

A shallow embedding of `connectable.go`.  Every call that leaves the process
(the container runtime API, the NAT-table query, the address resolver, the
log) is either an input supplied by an oracle record or an `Event` appended
to the trace a function returns, so that "what the code did" is a list that
can be inspected.

Go values are embedded as follows.

* `string` is `String`; `fmt.Sprintf` with `%s` verbs is concatenation.
* `error` is `GoError`, the message of the error; a `(T, error)` result is
  `Except GoError T` and a lone `error` result is `Option GoError`.
* `map[string]string` is the list of its entries in the order a `range`
  loop visits them (any order is possible, so theorems quantify over all
  lists); indexing the map is `List.lookup`.
* `uint16` arithmetic is arithmetic on `Nat` reduced modulo `2 ^ 16`.
* `log.Fatal` and a nil-pointer dereference end the process; a function that
  can reach them returns an `Outcome`.
-/

namespace Connectable

/-! ## Data model -/

/-- A Go `error`, identified with its message. -/
abbrev GoError := String

/-- The fields of `docker.Container` the program reads: `ID`, `Image`,
`Config.Hostname`, `HostConfig.NetworkMode`, `NetworkSettings.IPAddress` and
`Config.Labels`. -/
structure Container where
  ID : String
  Image : String
  Hostname : String
  NetworkMode : String
  IPAddress : String
  Labels : List (String × String)
deriving DecidableEq

/-- The fields of `docker.CreateContainerOptions` that `runNetCmd` fills in:
`Config.Image`, `Config.Cmd`, `HostConfig.Privileged` and
`HostConfig.NetworkMode`. -/
structure CreateContainerOptions where
  Image : String
  Cmd : List String
  Privileged : Bool
  NetworkMode : String
deriving DecidableEq

/-- Everything the program does that is visible outside its own memory. -/
inductive Event where
  | newClient
  | listContainers
  | inspectContainer (id : String)
  | createContainer (opts : CreateContainerOptions)
  | startContainer (id : String)
  | waitContainer (id : String)
  | removeContainer (id : String) (force : Bool)
  | log (msg : String)
  | stdout (msg : String)
  | resolve (backend : String)
  | close
  | goProxyConn (addr : String)
deriving DecidableEq

/-- The answers of the container runtime reached through
`github.com/fsouza/go-dockerclient`.  `InspectContainer` answers with a
descriptor or with an error; with an error the descriptor pointer is nil. -/
structure Docker where
  newClient : Option GoError
  listContainers : Except GoError (List String)
  inspectContainer : String → Except GoError Container
  createContainer : CreateContainerOptions → Except GoError String
  startContainer : String → Option GoError
  waitContainer : String → Except GoError Int
  removeContainer : String → Option GoError

/-- How a function that may end the process finishes: it returns, it stops
the process through `log.Fatal`, or it panics on a nil pointer. -/
inductive Outcome (α : Type) where
  | returned (a : α)
  | fatal
  | panic
deriving DecidableEq

/-- The record `syscall.GetsockoptIPv6Mreq` returns: sixteen address bytes
and an interface index. -/
structure IPv6Mreq where
  Multiaddr : List Nat
  Interface : Nat

/-- An accepted connection, as far as the program looks at it:
`RemoteAddr().String()`, the host part `net.SplitHostPort` extracts from it,
the result of `File()` and the result of the `SO_ORIGINAL_DST` query. -/
structure Conn where
  RemoteAddr : String
  RemoteHost : String
  File : Option GoError
  OriginalDst : Except GoError IPv6Mreq

/-! ## Library functions -/

/-- The conversion `uint16(x)`. -/
def uint16 (x : Nat) : Nat := x % 65536

/-- The shift `x << n` on a `uint16`: bits shifted past bit 15 are lost. -/
def shl16 (x n : Nat) : Nat := (x * 2 ^ n) % 65536

/-- The function `strconv.Itoa`: the decimal rendering of an `int`. -/
def Itoa (i : Int) : String :=
  match i with
  | Int.ofNat n => Nat.repr n
  | Int.negSucc n => "-" ++ Nat.repr (n + 1)

/-- The function `strings.Join(elems, sep)`. -/
def stringsJoin : List String → String → String
  | [], _ => ""
  | a :: rest, sep =>
    match rest with
    | [] => a
    | _ :: _ => a ++ sep ++ stringsJoin rest sep

/-- The verb `%v` of `fmt` applied to a `map[string]string`: the entries
sorted by key, rendered `key:value`, separated by blanks, inside `map[ ]`. -/
def fmtLabels (m : List (String × String)) : String :=
  "map[" ++ stringsJoin
    ((m.insertionSort (fun a b => ¬ (b.1.data < a.1.data))).map (fun kv => kv.1 ++ ":" ++ kv.2)) " " ++ "]"

/-! ## Destination recovery -/

/-- Source: `originalDestinationPort`. -/
def originalDestinationPort (conn : Conn) : Except GoError String :=
  match conn.File with
  | some err => .error err
  | none =>
    match conn.OriginalDst with
    | .error err => .error err
    | .ok addr =>
      let port := uint16 (shl16 (uint16 (addr.Multiaddr.getD 2 0)) 8 + uint16 (addr.Multiaddr.getD 3 0))
      .ok (Itoa (Int.ofNat port))

/-! ## Backend resolver -/

/-- The body of the `for _, listing := range containers` loop of
`inspectBackend`, over the identifiers still to visit. -/
def inspectBackendLoop (d : Docker) (sourceIP label : String) :
    List String → List Event × Except GoError String
  | [] => ([], .error "unable to find container with source IP")
  | id :: rest =>
    match d.inspectContainer id with
    | .error err => ([.inspectContainer id], .error err)
    | .ok container =>
      if container.IPAddress = sourceIP then
        match container.Labels.lookup label with
        | none =>
          ([.inspectContainer id],
            .error ("connect label '" ++ label ++ "' not found: " ++ fmtLabels container.Labels))
        | some backend => ([.inspectContainer id], .ok backend)
      else
        let r := inspectBackendLoop d sourceIP label rest
        (.inspectContainer id :: r.1, r.2)

/-- Source: `inspectBackend`. -/
def inspectBackend (d : Docker) (sourceIP destPort : String) :
    List Event × Except GoError String :=
  let label := "connect[" ++ destPort ++ "]"
  match d.newClient with
  | some err => ([.newClient], .error err)
  | none =>
    match d.listContainers with
    | .error err => ([.newClient, .listContainers], .error err)
    | .ok containers =>
      let r := inspectBackendLoop d sourceIP label containers
      (.newClient :: .listContainers :: r.1, r.2)

/-- Source: `lookupBackend`. -/
def lookupBackend (d : Docker) (conn : Conn) : List Event × String :=
  let sourceIP := conn.RemoteHost
  match originalDestinationPort conn with
  | .error _ => ([.log "unable to determine destination port"], "")
  | .ok destPort =>
    let r := inspectBackend d sourceIP destPort
    match r.2 with
    | .error err => (r.1 ++ [.log err], "")
    | .ok backend => (r.1, backend)

/-! ## Firewall orchestrator -/

/-- Source: `runNetCmd`. -/
def runNetCmd (d : Docker) (container image : String) (cmd : List String) :
    List Event × Option GoError :=
  match d.newClient with
  | some err => ([.newClient], some err)
  | none =>
    let opts : CreateContainerOptions :=
      { Image := image, Cmd := cmd, Privileged := true,
        NetworkMode := "container:" ++ container }
    match d.createContainer opts with
    | .error err => ([.newClient, .createContainer opts], some err)
    | .ok cID =>
      match d.startContainer cID with
      | some err => ([.newClient, .createContainer opts, .startContainer cID], some err)
      | none =>
        match d.waitContainer cID with
        | .error err =>
          ([.newClient, .createContainer opts, .startContainer cID, .waitContainer cID], some err)
        | .ok status =>
          if status ≠ 0 then
            ([.newClient, .createContainer opts, .startContainer cID, .waitContainer cID],
              some ("non-zero exit: " ++ toString status))
          else
            ([.newClient, .createContainer opts, .startContainer cID, .waitContainer cID,
                .removeContainer cID true],
              d.removeContainer cID)

/-- Removes the literal `lit` from the front of `s`, if `s` starts with it. -/
def stripLit : List Char → List Char → Option (List Char)
  | [], s => some s
  | _ :: _, [] => none
  | a :: lit, b :: s => if a = b then stripLit lit s else none

/-- A match of `connect\[(\d+)\]` that begins at the first character of `s`:
the text matched and the text of the capture group.  `\d+` is greedy and the
character after it must be `]`, which is no digit, so the run of digits taken
is the longest one. -/
def matchHere (s : List Char) : Option (List Char × List Char) :=
  match stripLit "connect[".data s with
  | none => none
  | some rest =>
    let digits := rest.takeWhile Char.isDigit
    match rest.dropWhile Char.isDigit with
    | c :: _ =>
      if c = ']' ∧ digits ≠ [] then some ("connect[".data ++ digits ++ [']'], digits) else none
    | [] => none

/-- The leftmost match of `connect\[(\d+)\]` in `s`. -/
def findMatch : List Char → Option (List Char × List Char)
  | [] => none
  | c :: s =>
    match matchHere (c :: s) with
    | some m => some m
    | none => findMatch s

/-- Source: `re.FindStringSubmatch(k)` for
`re := regexp.MustCompile("connect\\[(\\d+)\\]")`: nil without a match,
otherwise the text of the leftmost match followed by its capture group. -/
def reFindStringSubmatch (k : String) : List String :=
  match findMatch k.data with
  | none => []
  | some m => [String.mk m.1, String.mk m.2]

/-- The first of the two commands every per-container script starts with. -/
def sysctlCmd : String := "/sbin/sysctl -w net.ipv4.conf.all.route_localnet=1"

/-- The second of the two commands every per-container script starts with. -/
def masqueradeCmd : String :=
  "iptables -t nat -I POSTROUTING 1 -m addrtype --src-type LOCAL --dst-type UNICAST -j MASQUERADE"

/-- The `fmt.Sprintf` of `setupContainer`: the OUTPUT-chain DNAT rule for a
port and the address of Self. -/
def dnatCmd (port selfIP : String) : String :=
  "iptables -t nat -I OUTPUT 1 -m addrtype --src-type LOCAL --dst-type LOCAL -p tcp --dport "
    ++ port ++ " -j DNAT --to-destination " ++ selfIP ++ ":" ++ port

/-- The commands `setupContainer` collects in `cmds`: the two fixed ones and
what the `for k, _ := range container.Config.Labels` loop appends. -/
def setupContainerCmds (selfIP : String) (labels : List (String × String)) : List String :=
  labels.foldl
    (fun cmds kv =>
      let results := reFindStringSubmatch kv.1
      if results.length > 1 then cmds ++ [dnatCmd (results.getD 1 "") selfIP] else cmds)
    [sysctlCmd, masqueradeCmd]

/-- Source: `setupContainer`, with the global `self` as a parameter (it is
set before the first call).  After a failed inspect the descriptor pointer is
nil and reading `container.HostConfig` panics. -/
def setupContainer (d : Docker) (self : Container) (id : String) :
    List Event × Outcome Unit :=
  match d.newClient with
  | some err => ([.newClient, .log err], .fatal)
  | none =>
    match d.inspectContainer id with
    | .error err => ([.newClient, .inspectContainer id, .log err], .panic)
    | .ok container =>
      if container.NetworkMode = "bridge" then
        let cmds := setupContainerCmds self.IPAddress container.Labels
        let shellCmd := stringsJoin cmds " && "
        let r := runNetCmd d container.ID self.Image ["/bin/sh", "-c", shellCmd]
        match r.2 with
        | some err => ([.newClient, .inspectContainer id] ++ r.1 ++ [.log err], .fatal)
        | none => ([.newClient, .inspectContainer id] ++ r.1, .returned ())
      else
        ([.newClient, .inspectContainer id], .returned ())

/-! ## Accept loop -/

/-- The PREROUTING rule of self-setup. -/
def redirectCmd (port : String) : String :=
  "iptables -t nat -A PREROUTING -p tcp -j REDIRECT --to-ports " ++ port

/-- The `for _, listing := range list` loop of `main`, with the value of the
global `self` passed along.  The error of `InspectContainer` is discarded, so
after a failed inspect `c` is nil and reading `c.Config` panics. -/
def mainScanLoop (d : Docker) (HOSTNAME port : String) :
    List String → Option Container → List Event × Outcome (Option Container)
  | [], self => ([], .returned self)
  | id :: rest, self =>
    match d.inspectContainer id with
    | .error _ => ([.inspectContainer id], .panic)
    | .ok c =>
      if c.Hostname = HOSTNAME then
        let shown := Event.stdout ("Self: " ++ c.ID ++ " " ++ c.NetworkMode)
        if c.NetworkMode = "bridge" then
          let r := runNetCmd d c.ID c.Image ["/bin/sh", "-c", redirectCmd port]
          match r.2 with
          | some err => ([.inspectContainer id, shown] ++ r.1 ++ [.log err], .fatal)
          | none =>
            let k := mainScanLoop d HOSTNAME port rest (some c)
            ([.inspectContainer id, shown] ++ r.1 ++ k.1, k.2)
        else
          let k := mainScanLoop d HOSTNAME port rest (some c)
          ([.inspectContainer id, shown] ++ k.1, k.2)
      else
        let k := mainScanLoop d HOSTNAME port rest self
        (.inspectContainer id :: k.1, k.2)

/-- Source: `main`, from `docker.NewClient` to the check `self == nil`.  The
errors of `NewClient` and `ListContainers` are discarded: without a client
the call `client.ListContainers` panics, and a failed listing is an empty
list.  The result is the descriptor left in `self`. -/
def mainScan (d : Docker) (HOSTNAME port : String) : List Event × Outcome Container :=
  match d.newClient with
  | some _ => ([.newClient], .panic)
  | none =>
    let list := match d.listContainers with
      | .ok l => l
      | .error _ => []
    let r := mainScanLoop d HOSTNAME port list none
    match r.2 with
    | .returned none =>
      (.newClient :: .listContainers :: r.1 ++ [.log "unable to find self"], .fatal)
    | .returned (some c) => (.newClient :: .listContainers :: r.1, .returned c)
    | .fatal => (.newClient :: .listContainers :: r.1, .fatal)
    | .panic => (.newClient :: .listContainers :: r.1, .panic)

/-- Source: the body of the `for` loop of `main` after a successful
`listener.Accept()`.  `resolve` is `lookup.Resolve`; the only call of
`net.Dial` is the first statement of `proxyConn`, so a dial is performed
exactly when `goProxyConn` is in the trace. -/
def acceptStep (d : Docker) (resolve : String → Except GoError (List String)) (conn : Conn) :
    List Event :=
  let r := lookupBackend d conn
  if r.2 = "" then r.1 ++ [.close]
  else
    match resolve r.2 with
    | .error err => r.1 ++ [.resolve r.2, .log err, .close]
    | .ok backendAddrs =>
      match backendAddrs with
      | [] => r.1 ++ [.resolve r.2, .close]
      | addr :: _ =>
        r.1 ++ [.resolve r.2, .log (conn.RemoteAddr ++ " -> " ++ addr), .goProxyConn addr]

/-- The `CreateContainer` requests in a trace, in order: the helper
containers the program asked for. -/
def helperRequests : List Event → List CreateContainerOptions
  | [] => []
  | .createContainer opts :: es => opts :: helperRequests es
  | _ :: es => helperRequests es


/-! ## Specification vocabulary and sample inputs -/

/-- Decoding of a decimal numeral, most significant digit first. -/
def decodeDecimal (s : List Char) : Nat :=
  s.foldl (fun acc c => 10 * acc + (c.toNat - 48)) 0

/-- The runtime `d` answering `ListContainers` with `ids`. -/
def withListing (d : Docker) (ids : List String) : Docker :=
  { d with listContainers := .ok ids }

/-- Failure condition (i) of the backend resolver: the listing and every
inspect succeed and no listed container has the source IP. -/
def NoSourceIP (d : Docker) (sourceIP : String) : Prop :=
  d.newClient = none ∧ ∃ ids, d.listContainers = .ok ids ∧
    ∀ id ∈ ids, ∃ c, d.inspectContainer id = .ok c ∧ c.IPAddress ≠ sourceIP

/-- Failure condition (ii) of the backend resolver: the first listed
container with the source IP has no label with key `label`. -/
def LabelMissing (d : Docker) (sourceIP label : String) : Prop :=
  d.newClient = none ∧ ∃ before id after c, d.listContainers = .ok (before ++ id :: after) ∧
    (∀ x ∈ before, ∃ c', d.inspectContainer x = .ok c' ∧ c'.IPAddress ≠ sourceIP) ∧
    d.inspectContainer id = .ok c ∧ c.IPAddress = sourceIP ∧ ∀ v, (label, v) ∉ c.Labels

/-- Failure condition (iii) of the backend resolver: the runtime query fails,
that is, the client cannot be created, the listing fails, or an inspect the
resolver performs fails (every container listed before it was inspected and
did not have the source IP). -/
def RuntimeFails (d : Docker) (sourceIP : String) : Prop :=
  d.newClient ≠ none ∨ (∃ err, d.listContainers = .error err) ∨
    ∃ before id after err, d.listContainers = .ok (before ++ id :: after) ∧
      (∀ x ∈ before, ∃ c', d.inspectContainer x = .ok c' ∧ c'.IPAddress ≠ sourceIP) ∧
      d.inspectContainer id = .error err

/-- Container `web1` of scenario A. -/
def web1 : Container :=
  { ID := "web1", Image := "nginx", Hostname := "web1", NetworkMode := "bridge",
    IPAddress := "172.17.0.2", Labels := [("connect[8080]", "api1")] }

/-- Container `api1` of scenario A. -/
def api1 : Container :=
  { ID := "api1", Image := "api", Hostname := "api1", NetworkMode := "bridge",
    IPAddress := "172.17.0.3", Labels := [] }

/-- A runtime with the containers `web1` and `api1`, in which every helper
container runs and exits with status 0. -/
def dockerA : Docker :=
  { newClient := none
    listContainers := .ok ["web1", "api1"]
    inspectContainer := fun id =>
      if id = "web1" then .ok web1 else if id = "api1" then .ok api1
      else .error ("No such container: " ++ id)
    createContainer := fun _ => .ok "helper"
    startContainer := fun _ => none
    waitContainer := fun _ => .ok 0
    removeContainer := fun _ => none }

/-- A connection from `web1` whose original destination port is 8080
(`0x1F90`, bytes 31 and 144). -/
def connA : Conn :=
  { RemoteAddr := "172.17.0.2:41000", RemoteHost := "172.17.0.2", File := none
    OriginalDst := .ok ⟨[2, 0, 31, 144, 10, 0, 0, 5, 0, 0, 0, 0, 0, 0, 0, 0], 0⟩ }

/-- The address resolver of scenario A. -/
def resolveA (backend : String) : Except GoError (List String) :=
  if backend = "api1" then .ok ["10.0.0.5:9090"] else .error ("no such service: " ++ backend)

/-- Container `web2` of scenario C: it declares a backend for port 9000 only. -/
def web2 : Container :=
  { ID := "web2", Image := "nginx", Hostname := "web2", NetworkMode := "bridge",
    IPAddress := "172.17.0.2", Labels := [("connect[9000]", "db1")] }

/-- A runtime with the containers `web2` and `api1`. -/
def dockerC : Docker :=
  { dockerA with
    listContainers := .ok ["web2", "api1"]
    inspectContainer := fun id =>
      if id = "web2" then .ok web2 else if id = "api1" then .ok api1
      else .error ("No such container: " ++ id) }

/-- The proxy's own container. -/
def selfC : Container :=
  { ID := "proxy", Image := "connectable", Hostname := "proxy", NetworkMode := "bridge",
    IPAddress := "172.17.0.9", Labels := [] }

/-- A bridge-mode container whose only label key contains `connect[80]`
without being equal to it. -/
def web3 : Container :=
  { ID := "web3", Image := "nginx", Hostname := "web3", NetworkMode := "bridge",
    IPAddress := "172.17.0.4", Labels := [("xconnect[80]", "api1")] }

/-- A runtime with the single container `web3`. -/
def dockerS : Docker :=
  { dockerA with
    listContainers := .ok ["web3"]
    inspectContainer := fun id =>
      if id = "web3" then .ok web3 else .error ("No such container: " ++ id) }

/-- The shell script `setupContainer` builds for the descriptor `c`. -/
def setupScript (self c : Container) : String :=
  stringsJoin (setupContainerCmds self.IPAddress c.Labels) " && "

/-- The helper request `runNetCmd container image ["/bin/sh", "-c", script]`
sends to `CreateContainer`: one privileged shell invocation inside the network
namespace of `container`. -/
def shellRequest (container image script : String) : CreateContainerOptions :=
  { Image := image, Cmd := ["/bin/sh", "-c", script], Privileged := true,
    NetworkMode := "container:" ++ container }

/-- The spec's label key of the form `connect[<port>]`: the key is the string
`connect[P]` and `P` is a non-empty string of decimal digits. -/
def IsConnectKey (k P : String) : Prop :=
  k = "connect[" ++ P ++ "]" ∧ P.data ≠ [] ∧ ∀ c ∈ P.data, c.isDigit = true

/-- The key contains, somewhere, a substring of the form `connect[<port>]`. -/
def ContainsConnect (k : String) : Prop :=
  ∃ (s P t : List Char), k.data = s ++ ("connect[".data ++ P ++ [']']) ++ t ∧ P ≠ [] ∧
    ∀ c ∈ P, c.isDigit = true

/-- The port a label key declares in the spec's reading: `some P` when the
whole key is `connect[P]` with `P` a non-empty string of decimal digits. -/
def declaredPort (k : String) : Option String :=
  match stripLit "connect[".data k.data with
  | none => none
  | some rest =>
    if rest.getLast? = some ']' ∧ rest.dropLast ≠ [] ∧ rest.dropLast.all Char.isDigit = true then
      some (String.mk rest.dropLast)
    else none

/-- The runtime `dockerA` with every helper container exiting with status 1. -/
def dockerFail : Docker :=
  { dockerA with waitContainer := fun _ => .ok 1 }

/-- A host-mode container that declares a backend for port 80. -/
def hostC : Container :=
  { ID := "host1", Image := "nginx", Hostname := "host1", NetworkMode := "host",
    IPAddress := "", Labels := [("connect[80]", "api1")] }

/-- A runtime with the single container `hostC`. -/
def dockerH : Docker :=
  { dockerA with
    listContainers := .ok ["host1"]
    inspectContainer := fun id =>
      if id = "host1" then .ok hostC else .error ("No such container: " ++ id) }

/-- A first container with the proxy's hostname. -/
def proxy1 : Container :=
  { ID := "p1", Image := "connectable", Hostname := "proxy", NetworkMode := "bridge",
    IPAddress := "172.17.0.9", Labels := [] }

/-- A second container with the same hostname. -/
def proxy2 : Container :=
  { ID := "p2", Image := "connectable", Hostname := "proxy", NetworkMode := "bridge",
    IPAddress := "172.17.0.10", Labels := [] }

/-- A runtime that lists two containers with the hostname `proxy`. -/
def dockerDup : Docker :=
  { dockerA with
    listContainers := .ok ["p1", "p2"]
    inspectContainer := fun id =>
      if id = "p1" then .ok proxy1 else if id = "p2" then .ok proxy2
      else .error ("No such container: " ++ id) }

/-- A runtime that lists `web1`, the proxy's own container and `api1`. -/
def dockerP : Docker :=
  { dockerA with
    listContainers := .ok ["web1", "proxy", "api1"]
    inspectContainer := fun id =>
      if id = "web1" then .ok web1 else if id = "proxy" then .ok selfC
      else if id = "api1" then .ok api1 else .error ("No such container: " ++ id) }

/-- The runtime `dockerP` with every helper container exiting with status 1. -/
def dockerPFail : Docker :=
  { dockerP with waitContainer := fun _ => .ok 1 }

/-! ## Theorems -/

/-! ### Decimal rendering -/

theorem digitChar_spec (n : Nat) (h : n < 10) :
    (Nat.digitChar n).isDigit = true ∧ (Nat.digitChar n).toNat - 48 = n ∧
      (Nat.digitChar n = '0' → n = 0) := by
  interval_cases n <;> decide

theorem toDigitsCore_spec (fuel : Nat) : ∀ (n : Nat) (ds : List Char), n < fuel →
    ∃ l, Nat.toDigitsCore 10 fuel n ds = l ++ ds ∧ l ≠ [] ∧ (∀ c ∈ l, c.isDigit = true) ∧
      decodeDecimal l = n ∧ (l.head? = some '0' → l = ['0']) := by
  induction fuel with
  | zero => intro n ds h; omega
  | succ fuel ih =>
    intro n ds h
    obtain ⟨hd, hv, hz⟩ := digitChar_spec (n % 10) (Nat.mod_lt _ (by decide))
    by_cases hq : n / 10 = 0
    · refine ⟨[Nat.digitChar (n % 10)], ?_, by simp, ?_, ?_, ?_⟩
      · simp [Nat.toDigitsCore, hq]
      · simpa using hd
      · simp [decodeDecimal, hv]; omega
      · intro h0
        simp at h0
        simp [h0]
    · obtain ⟨l, hl, hne, hdig, hdec, hhead⟩ :=
        ih (n / 10) (Nat.digitChar (n % 10) :: ds) (by omega)
      refine ⟨l ++ [Nat.digitChar (n % 10)], ?_, by simp, ?_, ?_, ?_⟩
      · simp [Nat.toDigitsCore, hq, hl]
      · intro c hc
        rcases List.mem_append.1 hc with h1 | h1
        · exact hdig c h1
        · simp at h1; rw [h1]; exact hd
      · simp [decodeDecimal, List.foldl_append] at hdec ⊢
        rw [hdec, hv]; omega
      · intro h0
        exfalso
        cases l with
        | nil => exact hne rfl
        | cons a t =>
          simp at h0
          have := hhead (by simp [h0])
          rw [this] at hdec
          simp [decodeDecimal] at hdec
          omega

theorem Itoa_ofNat_spec (n : Nat) :
    (Itoa (Int.ofNat n)).data ≠ [] ∧ (∀ c ∈ (Itoa (Int.ofNat n)).data, c.isDigit = true) ∧
      decodeDecimal (Itoa (Int.ofNat n)).data = n ∧
      ((Itoa (Int.ofNat n)).data.head? = some '0' → (Itoa (Int.ofNat n)).data = ['0']) := by
  obtain ⟨l, hl, hne, hdig, hdec, hhead⟩ := toDigitsCore_spec (n + 1) n [] (Nat.lt_succ_self n)
  have hdata : (Itoa (Int.ofNat n)).data = l := by
    simp [Itoa, Nat.repr, Nat.toDigits, hl, List.asString]
  rw [hdata]
  exact ⟨hne, hdig, hdec, hhead⟩

/-- C4: for a record whose bytes at offsets 2 and 3 are `hi` and `lo`,
`originalDestinationPort` returns a non-empty string of decimal digits with
no leading zero (the only string that starts with `0` is `"0"` itself) whose
value is `256 * hi + lo`; that value is at most 65535, and neither the shift
nor the sum of the 16-bit computation wraps. -/
theorem originalDestinationPort_decimal (conn : Conn) (addr : IPv6Mreq)
    (hfile : conn.File = none) (hdst : conn.OriginalDst = .ok addr)
    (hhi : addr.Multiaddr.getD 2 0 < 256) (hlo : addr.Multiaddr.getD 3 0 < 256) :
    ∃ s : String, originalDestinationPort conn = .ok s ∧
      s.data ≠ [] ∧ (∀ c ∈ s.data, c.isDigit = true) ∧
      (s.data.head? = some '0' → s.data = ['0']) ∧
      decodeDecimal s.data = 256 * addr.Multiaddr.getD 2 0 + addr.Multiaddr.getD 3 0 ∧
      256 * addr.Multiaddr.getD 2 0 + addr.Multiaddr.getD 3 0 ≤ 65535 ∧
      shl16 (uint16 (addr.Multiaddr.getD 2 0)) 8 = 256 * addr.Multiaddr.getD 2 0 ∧
      uint16 (shl16 (uint16 (addr.Multiaddr.getD 2 0)) 8 + uint16 (addr.Multiaddr.getD 3 0))
        = 256 * addr.Multiaddr.getD 2 0 + addr.Multiaddr.getD 3 0 := by
  have hport : uint16 (shl16 (uint16 (addr.Multiaddr.getD 2 0)) 8 + uint16 (addr.Multiaddr.getD 3 0))
      = 256 * addr.Multiaddr.getD 2 0 + addr.Multiaddr.getD 3 0 := by
    simp only [uint16, shl16]; omega
  obtain ⟨h1, h2, h3, h4⟩ :=
    Itoa_ofNat_spec (256 * addr.Multiaddr.getD 2 0 + addr.Multiaddr.getD 3 0)
  refine ⟨Itoa (Int.ofNat (256 * addr.Multiaddr.getD 2 0 + addr.Multiaddr.getD 3 0)),
    ?_, h1, h2, h4, h3, by omega, by simp only [uint16, shl16]; omega, hport⟩
  simp only [originalDestinationPort, hfile, hdst, hport]

theorem originalDestinationPort_decimal_witness :
    ∃ s : String, originalDestinationPort connA = .ok s ∧
      s.data ≠ [] ∧ (∀ c ∈ s.data, c.isDigit = true) ∧
      (s.data.head? = some '0' → s.data = ['0']) ∧
      decodeDecimal s.data = 256 * 31 + 144 ∧
      256 * 31 + 144 ≤ 65535 ∧
      shl16 (uint16 31) 8 = 256 * 31 ∧
      uint16 (shl16 (uint16 31) 8 + uint16 144) = 256 * 31 + 144 :=
  originalDestinationPort_decimal connA
    ⟨[2, 0, 31, 144, 10, 0, 0, 5, 0, 0, 0, 0, 0, 0, 0, 0], 0⟩ rfl rfl (by decide) (by decide)

/-! ### Backend resolver -/

theorem lookup_eq_some_iff (l : List (String × String)) (k v : String)
    (h : (l.map Prod.fst).Nodup) : l.lookup k = some v ↔ (k, v) ∈ l := by
  induction l with
  | nil => simp
  | cons a t ih =>
    obtain ⟨a1, a2⟩ := a
    simp only [List.map_cons, List.nodup_cons] at h
    by_cases hk : k = a1
    · subst hk
      have hnot : (k, v) ∉ t := fun hm => h.1 (List.mem_map.2 ⟨(k, v), hm, rfl⟩)
      simp [List.lookup, hnot, eq_comm]
    · have hb : (k == a1) = false := by simpa using hk
      simp [List.lookup, hb, ih h.2, hk]

theorem lookup_eq_none_of_not_mem (l : List (String × String)) (k : String)
    (h : ∀ v, (k, v) ∉ l) : l.lookup k = none := by
  induction l with
  | nil => simp
  | cons a t ih =>
    obtain ⟨a1, a2⟩ := a
    have hk : k ≠ a1 := by
      intro hk
      exact h a2 (by simp [hk])
    have hb : (k == a1) = false := by simpa using hk
    have ht : ∀ v, (k, v) ∉ t := fun v hm => h v (List.mem_cons_of_mem _ hm)
    simp [List.lookup, hb, ih ht]

theorem inspectBackendLoop_ok_iff (d : Docker) (sourceIP label b : String) :
    ∀ (ids : List String) (cs : List Container),
      ids.map d.inspectContainer = cs.map Except.ok →
      ((inspectBackendLoop d sourceIP label ids).2 = .ok b ↔
        ∃ c, cs.find? (fun c => c.IPAddress = sourceIP) = some c ∧
          c.Labels.lookup label = some b) := by
  intro ids
  induction ids with
  | nil =>
    intro cs h
    cases cs with
    | nil => simp [inspectBackendLoop]
    | cons c cs => simp at h
  | cons id rest ih =>
    intro cs h
    cases cs with
    | nil => simp at h
    | cons c cs =>
      simp only [List.map_cons, List.cons.injEq] at h
      obtain ⟨hid, hrest⟩ := h
      by_cases hip : c.IPAddress = sourceIP
      · cases hl : c.Labels.lookup label with
        | none => simp [inspectBackendLoop, hid, hip, hl]
        | some v => simp [inspectBackendLoop, hid, hip, hl]
      · simp [inspectBackendLoop, hid, hip, ih cs hrest]

theorem inspectBackendLoop_append (d : Docker) (sourceIP label : String) :
    ∀ (ids later : List String),
      (∃ id ∈ ids, ∃ c, d.inspectContainer id = .ok c ∧ c.IPAddress = sourceIP) →
      inspectBackendLoop d sourceIP label (ids ++ later) =
        inspectBackendLoop d sourceIP label ids := by
  intro ids
  induction ids with
  | nil => intro later h; simp at h
  | cons id rest ih =>
    intro later h
    cases hid : d.inspectContainer id with
    | error err => simp [inspectBackendLoop, hid]
    | ok c =>
      by_cases hip : c.IPAddress = sourceIP
      · cases hl : c.Labels.lookup label with
        | none => simp [inspectBackendLoop, hid, hip, hl]
        | some v => simp [inspectBackendLoop, hid, hip, hl]
      · have hrest : ∃ x ∈ rest, ∃ c, d.inspectContainer x = .ok c ∧ c.IPAddress = sourceIP := by
          obtain ⟨x, hx, c', hc', hip'⟩ := h
          rcases List.mem_cons.1 hx with hx | hx
          · subst hx
            rw [hid] at hc'
            cases hc'
            exact absurd hip' hip
          · exact ⟨x, hx, c', hc', hip'⟩
        simp [inspectBackendLoop, hid, hip, ih later hrest]

theorem inspectBackendLoop_congr (d d' : Docker) (sourceIP label : String)
    (h : d.inspectContainer = d'.inspectContainer) (ids : List String) :
    inspectBackendLoop d sourceIP label ids = inspectBackendLoop d' sourceIP label ids := by
  induction ids with
  | nil => simp [inspectBackendLoop]
  | cons a t iht => simp [inspectBackendLoop, h, iht]

theorem inspectBackend_unfold (d : Docker) (sourceIP P : String) (ids : List String)
    (hclient : d.newClient = none) (hlist : d.listContainers = .ok ids) :
    inspectBackend d sourceIP P =
      (.newClient :: .listContainers ::
          (inspectBackendLoop d sourceIP ("connect[" ++ P ++ "]") ids).1,
        (inspectBackendLoop d sourceIP ("connect[" ++ P ++ "]") ids).2) := by
  simp only [inspectBackend, hclient, hlist]

/-- C1: when the client, the listing and every inspect succeed, returning the
descriptors `cs` in list order, `inspectBackend` returns the backend `b`
without error exactly when the first container of `cs` whose assigned IP is
the source IP carries the label `connect[P]` with value `b`; and whatever is
listed after a container with the source IP, even containers whose inspect
would fail, leaves the result unchanged. -/
theorem inspectBackend_first_match (d : Docker) (sourceIP P b : String)
    (ids : List String) (cs : List Container)
    (hclient : d.newClient = none) (hlist : d.listContainers = .ok ids)
    (hinspect : ids.map d.inspectContainer = cs.map Except.ok)
    (hmap : ∀ c ∈ cs, (c.Labels.map Prod.fst).Nodup) :
    ((inspectBackend d sourceIP P).2 = .ok b ↔
      ∃ c, cs.find? (fun c => c.IPAddress = sourceIP) = some c ∧
        ("connect[" ++ P ++ "]", b) ∈ c.Labels) ∧
    (∀ (n : Nat) (later : List String),
      (∃ c, cs.get? n = some c ∧ c.IPAddress = sourceIP) →
      inspectBackend (withListing d (ids.take (n + 1) ++ later)) sourceIP P =
        inspectBackend d sourceIP P) := by
  constructor
  · have hloop := inspectBackendLoop_ok_iff d sourceIP ("connect[" ++ P ++ "]") b ids cs hinspect
    simp only [inspectBackend, hclient, hlist]
    rw [hloop]
    constructor
    · rintro ⟨c, hfind, hl⟩
      exact ⟨c, hfind, (lookup_eq_some_iff _ _ _ (hmap c (List.mem_of_find?_eq_some hfind))).1 hl⟩
    · rintro ⟨c, hfind, hl⟩
      exact ⟨c, hfind, (lookup_eq_some_iff _ _ _ (hmap c (List.mem_of_find?_eq_some hfind))).2 hl⟩
  · rintro n later ⟨c, hn, hip⟩
    have hlen : cs.length = ids.length := by
      have := congrArg List.length hinspect
      simpa using this.symm
    have hnlt : n < ids.length := by
      rw [← hlen]
      exact (List.get?_eq_some.1 hn).1
    have hidn : d.inspectContainer (ids.get ⟨n, hnlt⟩) = .ok c := by
      have h1 : (ids.map d.inspectContainer).get? n = (cs.map Except.ok).get? n := by
        rw [hinspect]
      have hc : cs[n]? = some c := by simpa using hn
      have hi : ids[n]? = some (ids.get ⟨n, hnlt⟩) := by simp
      simp only [List.get?_eq_getElem?, List.getElem?_map, hc, hi, Option.map_some'] at h1
      exact Option.some.inj h1
    have hmem : ∃ id ∈ ids.take (n + 1), ∃ c, d.inspectContainer id = .ok c ∧
        c.IPAddress = sourceIP := by
      refine ⟨ids.get ⟨n, hnlt⟩, ?_, c, hidn, hip⟩
      rw [List.mem_iff_get]
      refine ⟨⟨n, ?_⟩, ?_⟩
      · simp [List.length_take]; omega
      · simp [List.get_eq_getElem, List.getElem_take]
    have h1 := inspectBackendLoop_append d sourceIP ("connect[" ++ P ++ "]") (ids.take (n + 1))
      later hmem
    have h2 := inspectBackendLoop_append d sourceIP ("connect[" ++ P ++ "]") (ids.take (n + 1))
      (ids.drop (n + 1)) hmem
    rw [List.take_append_drop] at h2
    have hw := inspectBackendLoop_congr (withListing d (ids.take (n + 1) ++ later)) d sourceIP
      ("connect[" ++ P ++ "]") rfl (ids.take (n + 1) ++ later)
    rw [inspectBackend_unfold d sourceIP P ids hclient hlist,
      inspectBackend_unfold (withListing d (ids.take (n + 1) ++ later)) sourceIP P
        (ids.take (n + 1) ++ later) hclient rfl, hw, h1, h2]

theorem inspectBackend_first_match_witness :
    ((inspectBackend dockerA "172.17.0.2" "8080").2 = .ok "api1" ↔
      ∃ c, [web1, api1].find? (fun c => c.IPAddress = "172.17.0.2") = some c ∧
        ("connect[" ++ "8080" ++ "]", "api1") ∈ c.Labels) ∧
    (∀ (n : Nat) (later : List String),
      (∃ c, [web1, api1].get? n = some c ∧ c.IPAddress = "172.17.0.2") →
      inspectBackend (withListing dockerA (["web1", "api1"].take (n + 1) ++ later))
          "172.17.0.2" "8080" =
        inspectBackend dockerA "172.17.0.2" "8080") :=
  inspectBackend_first_match dockerA "172.17.0.2" "8080" "api1" ["web1", "api1"] [web1, api1]
    rfl rfl rfl (by decide)

theorem inspectBackendLoop_skip (d : Docker) (sourceIP label : String) :
    ∀ (before rest : List String),
      (∀ x ∈ before, ∃ c, d.inspectContainer x = .ok c ∧ c.IPAddress ≠ sourceIP) →
      (inspectBackendLoop d sourceIP label (before ++ rest)).2 =
        (inspectBackendLoop d sourceIP label rest).2 := by
  intro before
  induction before with
  | nil => intro rest _; rfl
  | cons x t ih =>
    intro rest h
    obtain ⟨c, hc, hip⟩ := h x (List.mem_cons_self _ _)
    have ht : ∀ y ∈ t, ∃ c, d.inspectContainer y = .ok c ∧ c.IPAddress ≠ sourceIP :=
      fun y hy => h y (List.mem_cons_of_mem _ hy)
    simp [inspectBackendLoop, hc, hip, ih rest ht]

theorem inspectBackendLoop_events (d : Docker) (sourceIP label : String) (ids : List String) :
    ∀ e ∈ (inspectBackendLoop d sourceIP label ids).1, ∃ id, e = .inspectContainer id := by
  induction ids with
  | nil => simp [inspectBackendLoop]
  | cons x t ih =>
    intro e he
    cases hx : d.inspectContainer x with
    | error err =>
      simp [inspectBackendLoop, hx] at he
      exact ⟨x, he⟩
    | ok c =>
      by_cases hip : c.IPAddress = sourceIP
      · cases hl : c.Labels.lookup label with
        | none =>
          simp [inspectBackendLoop, hx, hip, hl] at he
          exact ⟨x, he⟩
        | some v =>
          simp [inspectBackendLoop, hx, hip, hl] at he
          exact ⟨x, he⟩
      · simp [inspectBackendLoop, hx, hip] at he
        rcases he with he | he
        · exact ⟨x, he⟩
        · exact ih e he

theorem inspectBackend_events (d : Docker) (sourceIP P : String) :
    ∀ e ∈ (inspectBackend d sourceIP P).1,
      e = .newClient ∨ e = .listContainers ∨ ∃ id, e = .inspectContainer id := by
  intro e he
  cases hc : d.newClient with
  | some err =>
    simp [inspectBackend, hc] at he
    exact Or.inl he
  | none =>
    cases hl : d.listContainers with
    | error err =>
      simp [inspectBackend, hc, hl] at he
      rcases he with he | he
      · exact Or.inl he
      · exact Or.inr (Or.inl he)
    | ok ids =>
      simp [inspectBackend, hc, hl] at he
      rcases he with he | he | he
      · exact Or.inl he
      · exact Or.inr (Or.inl he)
      · exact Or.inr (Or.inr (inspectBackendLoop_events d sourceIP _ ids e he))

theorem lookupBackend_events (d : Docker) (conn : Conn) :
    ∀ e ∈ (lookupBackend d conn).1, e ≠ .close ∧ ∀ addr, e ≠ .goProxyConn addr := by
  intro e he
  cases hp : originalDestinationPort conn with
  | error err =>
    simp [lookupBackend, hp] at he
    subst he
    simp
  | ok P =>
    have hev := inspectBackend_events d conn.RemoteHost P
    cases hb : (inspectBackend d conn.RemoteHost P).2 with
    | error err =>
      simp [lookupBackend, hp, hb] at he
      rcases he with he | he
      · rcases hev e he with h | h | ⟨id, h⟩ <;> subst h <;> simp
      · subst he
        simp
    | ok b =>
      simp [lookupBackend, hp, hb] at he
      rcases hev e he with h | h | ⟨id, h⟩ <;> subst h <;> simp

theorem inspectBackend_labelMissing (d : Docker) (sourceIP P : String)
    (h : LabelMissing d sourceIP ("connect[" ++ P ++ "]")) :
    ∃ labels, (inspectBackend d sourceIP P).2 =
      .error ("connect label '" ++ ("connect[" ++ P ++ "]") ++ "' not found: " ++ fmtLabels labels) := by
  obtain ⟨hclient, before, id, after, c, hlist, hbefore, hid, hip, hno⟩ := h
  refine ⟨c.Labels, ?_⟩
  rw [inspectBackend_unfold d sourceIP P _ hclient hlist]
  simp only
  rw [inspectBackendLoop_skip d sourceIP _ before (id :: after) hbefore]
  simp [inspectBackendLoop, hid, hip, lookup_eq_none_of_not_mem _ _ hno]

theorem inspectBackend_error (d : Docker) (sourceIP P : String)
    (h : NoSourceIP d sourceIP ∨ LabelMissing d sourceIP ("connect[" ++ P ++ "]") ∨
      RuntimeFails d sourceIP) :
    ∃ err, (inspectBackend d sourceIP P).2 = .error err := by
  rcases h with h | h | h
  · obtain ⟨hclient, ids, hlist, hall⟩ := h
    refine ⟨"unable to find container with source IP", ?_⟩
    rw [inspectBackend_unfold d sourceIP P _ hclient hlist]
    simp only
    have := inspectBackendLoop_skip d sourceIP ("connect[" ++ P ++ "]") ids [] hall
    rw [List.append_nil] at this
    rw [this]
    rfl
  · obtain ⟨labels, hl⟩ := inspectBackend_labelMissing d sourceIP P h
    exact ⟨_, hl⟩
  · rcases h with h | ⟨err, h⟩ | ⟨before, id, after, err, hlist, hbefore, hid⟩
    · cases hc : d.newClient with
      | none => exact absurd hc h
      | some err => exact ⟨err, by simp [inspectBackend, hc]⟩
    · cases hc : d.newClient with
      | some err' => exact ⟨err', by simp [inspectBackend, hc]⟩
      | none => exact ⟨err, by simp [inspectBackend, hc, h]⟩
    · cases hc : d.newClient with
      | some err' => exact ⟨err', by simp [inspectBackend, hc]⟩
      | none =>
        refine ⟨err, ?_⟩
        rw [inspectBackend_unfold d sourceIP P _ hc hlist]
        simp only
        rw [inspectBackendLoop_skip d sourceIP _ before (id :: after) hbefore]
        simp [inspectBackendLoop, hid]

/-- C2: in each failure condition of the backend resolver, (i) no listed
container has the source IP, (ii) the first container with the source IP has
no label `connect[P]`, (iii) the client, the listing or an inspect the
resolver performs fails, `inspectBackend` returns an error and no backend;
in case (ii) the message of the error contains `connect[P]`; and for a
connection with that source IP and recovered port, `lookupBackend` returns
the empty string and the accept step closes the connection without starting
a proxy. -/
theorem inspectBackend_failure (d : Docker) (resolve : String → Except GoError (List String))
    (conn : Conn) (sourceIP P : String)
    (hport : originalDestinationPort conn = .ok P) (hhost : conn.RemoteHost = sourceIP)
    (h : NoSourceIP d sourceIP ∨ LabelMissing d sourceIP ("connect[" ++ P ++ "]") ∨
      RuntimeFails d sourceIP) :
    (∃ err, (inspectBackend d sourceIP P).2 = .error err ∧
      (LabelMissing d sourceIP ("connect[" ++ P ++ "]") →
        ("connect[" ++ P ++ "]").data <:+: err.data)) ∧
    (∀ b, (inspectBackend d sourceIP P).2 ≠ .ok b) ∧
    (lookupBackend d conn).2 = "" ∧
    Event.close ∈ acceptStep d resolve conn ∧
    ∀ addr, Event.goProxyConn addr ∉ acceptStep d resolve conn := by
  obtain ⟨err, herr⟩ := inspectBackend_error d sourceIP P h
  have hlook : (lookupBackend d conn).2 = "" := by
    simp [lookupBackend, hport, hhost, herr]
  refine ⟨⟨err, herr, ?_⟩, ?_, hlook, ?_, ?_⟩
  · intro hm
    obtain ⟨labels, hl⟩ := inspectBackend_labelMissing d sourceIP P hm
    rw [herr] at hl
    cases hl
    refine ⟨"connect label '".data, ("' not found: " ++ fmtLabels labels).data, ?_⟩
    simp [String.data_append]
  · intro b hb
    rw [herr] at hb
    cases hb
  · simp [acceptStep, hlook]
  · intro addr hmem
    simp only [acceptStep, hlook, if_true] at hmem
    rcases List.mem_append.1 hmem with hm | hm
    · exact (lookupBackend_events d conn _ hm).2 addr rfl
    · simp at hm

theorem inspectBackend_failure_witness :
    LabelMissing dockerC "172.17.0.2" ("connect[" ++ "8080" ++ "]") ∧
    ((∃ err, (inspectBackend dockerC "172.17.0.2" "8080").2 = .error err ∧
      (LabelMissing dockerC "172.17.0.2" ("connect[" ++ "8080" ++ "]") →
        ("connect[" ++ "8080" ++ "]").data <:+: err.data)) ∧
    (∀ b, (inspectBackend dockerC "172.17.0.2" "8080").2 ≠ .ok b) ∧
    (lookupBackend dockerC connA).2 = "" ∧
    Event.close ∈ acceptStep dockerC resolveA connA ∧
    ∀ addr, Event.goProxyConn addr ∉ acceptStep dockerC resolveA connA) :=
  have hm : LabelMissing dockerC "172.17.0.2" ("connect[" ++ "8080" ++ "]") :=
    ⟨rfl, [], "web2", ["api1"], web2, rfl, by simp, rfl, rfl, by simp [web2]⟩
  ⟨hm, inspectBackend_failure dockerC resolveA connA "172.17.0.2" "8080" rfl rfl
    (Or.inr (Or.inl hm))⟩

/-! ### Accept loop -/

/-- C3: the accept step starts the proxy engine for `addr` only if
destination recovery returned a port `P`, `inspectBackend` returned a backend
`b` for it and `lookup.Resolve b` returned a list whose first entry is
`addr`; whenever one of the three does not hold the connection is closed and
no proxy engine is started; and when destination recovery fails the step does
nothing but log and close, so `inspectBackend` is not called. -/
theorem acceptStep_gate (d : Docker) (resolve : String → Except GoError (List String))
    (conn : Conn) :
    (∀ addr, Event.goProxyConn addr ∈ acceptStep d resolve conn →
      ∃ P b addrs, originalDestinationPort conn = .ok P ∧
        (inspectBackend d conn.RemoteHost P).2 = .ok b ∧
        resolve b = .ok addrs ∧ addrs.head? = some addr) ∧
    ((¬ ∃ P b addrs, originalDestinationPort conn = .ok P ∧
        (inspectBackend d conn.RemoteHost P).2 = .ok b ∧
        resolve b = .ok addrs ∧ addrs ≠ []) →
      Event.close ∈ acceptStep d resolve conn ∧
        ∀ addr, Event.goProxyConn addr ∉ acceptStep d resolve conn) ∧
    (∀ err, originalDestinationPort conn = .error err →
      acceptStep d resolve conn =
        [.log "unable to determine destination port", .close]) := by
  have hev := lookupBackend_events d conn
  have key : ∀ addr, Event.goProxyConn addr ∈ acceptStep d resolve conn →
      ∃ P b addrs, originalDestinationPort conn = .ok P ∧
        (inspectBackend d conn.RemoteHost P).2 = .ok b ∧
        resolve b = .ok addrs ∧ addrs.head? = some addr := by
    intro addr hmem
    by_cases hempty : (lookupBackend d conn).2 = ""
    · simp only [acceptStep, hempty, if_true] at hmem
      rcases List.mem_append.1 hmem with hm | hm
      · exact absurd rfl ((hev _ hm).2 addr)
      · simp at hm
    · cases hp : originalDestinationPort conn with
      | error err => simp [lookupBackend, hp] at hempty
      | ok P =>
        cases hb : (inspectBackend d conn.RemoteHost P).2 with
        | error err => simp [lookupBackend, hp, hb] at hempty
        | ok b =>
          have hlb : (lookupBackend d conn).2 = b := by simp [lookupBackend, hp, hb]
          have hbne : ¬ b = "" := by rw [← hlb]; exact hempty
          cases hr : resolve b with
          | error err =>
            simp only [acceptStep, hlb, hr, if_neg hbne] at hmem
            rcases List.mem_append.1 hmem with hm | hm
            · exact absurd rfl ((hev _ hm).2 addr)
            · simp at hm
          | ok addrs =>
            cases addrs with
            | nil =>
              simp only [acceptStep, hlb, hr, if_neg hbne] at hmem
              rcases List.mem_append.1 hmem with hm | hm
              · exact absurd rfl ((hev _ hm).2 addr)
              · simp at hm
            | cons a rest =>
              simp only [acceptStep, hlb, hr, if_neg hbne] at hmem
              rcases List.mem_append.1 hmem with hm | hm
              · exact absurd rfl ((hev _ hm).2 addr)
              · simp at hm
                exact ⟨P, b, a :: rest, rfl, hb, hr, by simp [hm]⟩
  refine ⟨key, ?_, ?_⟩
  · intro hnot
    constructor
    · by_cases hempty : (lookupBackend d conn).2 = ""
      · simp [acceptStep, hempty]
      · cases hr : resolve (lookupBackend d conn).2 with
        | error err => simp [acceptStep, hempty, hr]
        | ok addrs =>
          cases addrs with
          | nil => simp [acceptStep, hempty, hr]
          | cons a rest =>
            exfalso
            have hmem : Event.goProxyConn a ∈ acceptStep d resolve conn := by
              simp [acceptStep, hempty, hr]
            obtain ⟨P, b, addrs, h1, h2, h3, h4⟩ := key a hmem
            refine hnot ⟨P, b, addrs, h1, h2, h3, ?_⟩
            intro h5
            rw [h5] at h4
            simp at h4
    · intro addr hmem
      obtain ⟨P, b, addrs, h1, h2, h3, h4⟩ := key addr hmem
      refine hnot ⟨P, b, addrs, h1, h2, h3, ?_⟩
      intro h5
      rw [h5] at h4
      simp at h4
  · intro err hp
    simp [acceptStep, lookupBackend, hp]

theorem acceptStep_gate_witness :
    Event.goProxyConn "10.0.0.5:9090" ∈ acceptStep dockerA resolveA connA ∧
    ∃ P b addrs, originalDestinationPort connA = .ok P ∧
      (inspectBackend dockerA connA.RemoteHost P).2 = .ok b ∧
      resolveA b = .ok addrs ∧ addrs.head? = some "10.0.0.5:9090" :=
  ⟨by decide, (acceptStep_gate dockerA resolveA connA).1 "10.0.0.5:9090" (by decide)⟩

/-! ### Label keys and the regular expression -/

theorem stripLit_append (lit rest : List Char) : stripLit lit (lit ++ rest) = some rest := by
  induction lit with
  | nil => cases rest <;> simp [stripLit]
  | cons a t ih => simp [stripLit, ih]

theorem stripLit_some (lit : List Char) : ∀ (s rest : List Char),
    stripLit lit s = some rest → s = lit ++ rest := by
  induction lit with
  | nil =>
    intro s rest h
    cases s <;> simp [stripLit] at h <;> simp [h]
  | cons a t ih =>
    intro s rest h
    cases s with
    | nil => simp [stripLit] at h
    | cons b s =>
      by_cases hab : a = b
      · subst hab
        simp [stripLit] at h
        simp [ih s rest h]
      · simp [stripLit, hab] at h

theorem takeWhile_digits (P t : List Char) (hP : ∀ c ∈ P, c.isDigit = true) :
    (P ++ ']' :: t).takeWhile Char.isDigit = P ∧ (P ++ ']' :: t).dropWhile Char.isDigit = ']' :: t := by
  induction P with
  | nil =>
    have : Char.isDigit ']' = false := by decide
    simp [List.takeWhile, List.dropWhile, this]
  | cons a P ih =>
    have ha : a.isDigit = true := hP a (List.mem_cons_self _ _)
    have := ih (fun c hc => hP c (List.mem_cons_of_mem _ hc))
    simp [List.takeWhile, List.dropWhile, ha, this]

theorem matchHere_exact (P t : List Char) (hne : P ≠ []) (hP : ∀ c ∈ P, c.isDigit = true) :
    matchHere ("connect[".data ++ (P ++ ']' :: t)) = some ("connect[".data ++ P ++ [']'], P) := by
  obtain ⟨h1, h2⟩ := takeWhile_digits P t hP
  simp only [matchHere, stripLit_append, h1, h2]
  simp [hne]

theorem matchHere_some (s : List Char) (m : List Char × List Char) (h : matchHere s = some m) :
    ∃ t, s = "connect[".data ++ m.2 ++ [']'] ++ t ∧ m.2 ≠ [] ∧ ∀ c ∈ m.2, c.isDigit = true := by
  unfold matchHere at h
  cases hs : stripLit "connect[".data s with
  | none => simp [hs] at h
  | some rest =>
    simp only [hs] at h
    have hsplit := List.takeWhile_append_dropWhile Char.isDigit rest
    cases hd : rest.dropWhile Char.isDigit with
    | nil => simp [hd] at h
    | cons c t =>
      simp only [hd] at h
      by_cases hc : c = ']' ∧ rest.takeWhile Char.isDigit ≠ []
      · rw [if_pos hc] at h
        cases h
        refine ⟨t, ?_, hc.2, fun c hc' => (List.mem_takeWhile_imp hc')⟩
        rw [stripLit_some _ _ _ hs]
        rw [hd, hc.1] at hsplit
        simp only [List.append_assoc, List.singleton_append]
        rw [hsplit]
      · rw [if_neg hc] at h
        cases h

theorem findMatch_some (s : List Char) (m : List Char × List Char) (h : findMatch s = some m) :
    ∃ before t, s = before ++ ("connect[".data ++ m.2 ++ [']']) ++ t ∧ m.2 ≠ [] ∧
      ∀ c ∈ m.2, c.isDigit = true := by
  induction s with
  | nil => simp [findMatch] at h
  | cons a s ih =>
    cases hm : matchHere (a :: s) with
    | some m' =>
      simp [findMatch, hm] at h
      subst h
      obtain ⟨t, h1, h2, h3⟩ := matchHere_some _ _ hm
      exact ⟨[], t, by simpa using h1, h2, h3⟩
    | none =>
      simp [findMatch, hm] at h
      obtain ⟨before, t, h1, h2, h3⟩ := ih h
      exact ⟨a :: before, t, by simp [h1], h2, h3⟩

theorem findMatch_exact (P : List Char) (hne : P ≠ []) (hP : ∀ c ∈ P, c.isDigit = true) :
    findMatch ("connect[".data ++ P ++ [']']) = some ("connect[".data ++ P ++ [']'], P) := by
  have h := matchHere_exact P [] hne hP
  have hcons : "connect[".data ++ P ++ [']'] = 'c' :: ("onnect[".data ++ P ++ [']']) := rfl
  have hcons2 : "connect[".data ++ (P ++ [']']) = 'c' :: ("onnect[".data ++ P ++ [']']) := by
    simp
  rw [hcons2] at h
  rw [hcons]
  simp only [findMatch, h]
  rfl

theorem reFindStringSubmatch_exact (k P : String) (h : IsConnectKey k P) :
    reFindStringSubmatch k = [k, P] := by
  obtain ⟨hk, hne, hP⟩ := h
  have hdata : k.data = "connect[".data ++ P.data ++ [']'] := by
    rw [hk]
    simp [String.data_append]
  have hk' : k = String.mk ("connect[".data ++ P.data ++ [']']) := by
    rw [← hdata]
  simp only [reFindStringSubmatch, hdata, findMatch_exact P.data hne hP]
  rw [← hk']

theorem reFindStringSubmatch_none (k : String) (h : ¬ ContainsConnect k) :
    reFindStringSubmatch k = [] := by
  cases hm : findMatch k.data with
  | none => simp [reFindStringSubmatch, hm]
  | some m =>
    exfalso
    obtain ⟨before, t, h1, h2, h3⟩ := findMatch_some _ _ hm
    exact h ⟨before, m.2, t, h1, h2, h3⟩

theorem declaredPort_iff (k P : String) : declaredPort k = some P ↔ IsConnectKey k P := by
  constructor
  · intro h
    unfold declaredPort at h
    cases hs : stripLit "connect[".data k.data with
    | none => simp [hs] at h
    | some rest =>
      simp only [hs] at h
      by_cases hc : rest.getLast? = some ']' ∧ rest.dropLast ≠ [] ∧
          rest.dropLast.all Char.isDigit = true
      · rw [if_pos hc] at h
        cases h
        have hrest : rest = rest.dropLast ++ [']'] :=
          (List.dropLast_append_getLast? _ hc.1).symm
        refine ⟨?_, hc.2.1, ?_⟩
        · apply String.ext
          rw [stripLit_some _ _ _ hs]
          simp only [String.data_append, List.append_assoc]
          show "connect[".data ++ rest = "connect[".data ++ (rest.dropLast ++ [']'])
          rw [← hrest]
        · intro c hmem
          exact List.all_eq_true.1 hc.2.2 c hmem
      · rw [if_neg hc] at h
        cases h
  · rintro ⟨hk, hne, hP⟩
    have hdata : k.data = "connect[".data ++ (P.data ++ [']']) := by
      rw [hk]
      simp [String.data_append]
    unfold declaredPort
    simp only [hdata, stripLit_append]
    have hall : P.data.all Char.isDigit = true := List.all_eq_true.2 hP
    simp [hne, hall]

/-! ### Firewall orchestrator -/

theorem helperRequests_append (l₁ l₂ : List Event) :
    helperRequests (l₁ ++ l₂) = helperRequests l₁ ++ helperRequests l₂ := by
  induction l₁ with
  | nil => rfl
  | cons e t ih => cases e <;> simp [helperRequests, ih]

theorem helperRequests_runNetCmd (d : Docker) (container image script : String)
    (hclient : d.newClient = none) :
    helperRequests (runNetCmd d container image ["/bin/sh", "-c", script]).1 =
      [shellRequest container image script] := by
  simp only [runNetCmd, hclient]
  repeat' split
  all_goals simp [helperRequests, shellRequest]

theorem setupContainerCmds_foldl (selfIP : String) (labels : List (String × String)) :
    ∀ acc : List String,
      labels.foldl
          (fun cmds kv =>
            let results := reFindStringSubmatch kv.1
            if results.length > 1 then cmds ++ [dnatCmd (results.getD 1 "") selfIP] else cmds)
          acc =
        acc ++ labels.filterMap (fun kv =>
          if (reFindStringSubmatch kv.1).length > 1 then
            some (dnatCmd ((reFindStringSubmatch kv.1).getD 1 "") selfIP)
          else none) := by
  induction labels with
  | nil => intro acc; simp
  | cons kv t ih =>
    intro acc
    by_cases h : (reFindStringSubmatch kv.1).length > 1
    · simp only [List.foldl_cons, List.filterMap_cons, h, if_true]
      rw [ih]
      simp
    · simp only [List.foldl_cons, List.filterMap_cons, h, if_false]
      rw [ih]

theorem setupContainerCmds_declared (selfIP : String) (labels : List (String × String))
    (hkeys : ∀ kv ∈ labels, (∃ P, IsConnectKey kv.1 P) ∨ ¬ ContainsConnect kv.1) :
    setupContainerCmds selfIP labels =
      sysctlCmd :: masqueradeCmd ::
        labels.filterMap (fun kv => (declaredPort kv.1).map (fun P => dnatCmd P selfIP)) := by
  unfold setupContainerCmds
  rw [setupContainerCmds_foldl]
  simp only [List.cons_append, List.nil_append, List.cons.injEq, true_and]
  apply List.filterMap_congr
  intro kv hkv
  rcases hkeys kv hkv with ⟨P, hP⟩ | hno
  · rw [reFindStringSubmatch_exact kv.1 P hP, (declaredPort_iff kv.1 P).2 hP]
    simp
  · rw [reFindStringSubmatch_none kv.1 hno]
    cases hd : declaredPort kv.1 with
    | none => simp
    | some P =>
      exfalso
      obtain ⟨hk, hne, hdig⟩ := (declaredPort_iff kv.1 P).1 hd
      refine hno ⟨[], P.data, [], ?_, hne, hdig⟩
      rw [hk]
      simp [String.data_append]

theorem setupContainer_requests (d : Docker) (self : Container) (id : String) (c : Container)
    (hclient : d.newClient = none) (hinspect : d.inspectContainer id = .ok c)
    (hmode : c.NetworkMode = "bridge") :
    helperRequests (setupContainer d self id).1 =
      [shellRequest c.ID self.Image (setupScript self c)] := by
  have hr := helperRequests_runNetCmd d c.ID self.Image (setupScript self c) hclient
  unfold setupScript at hr
  simp only [setupContainer, hclient, hinspect, hmode, if_true]
  cases h2 : (runNetCmd d c.ID self.Image
      ["/bin/sh", "-c", stringsJoin (setupContainerCmds self.IPAddress c.Labels) " && "]).2 with
  | none =>
    simp only [helperRequests_append, hr]
    simp [helperRequests, setupScript]
  | some err =>
    simp only [helperRequests_append, hr]
    simp [helperRequests, setupScript]

/-- C6 (amended): for a bridge-mode descriptor each of whose label keys either
is of the form `connect[<port>]` or contains no substring of that form, the
only helper request of `setupContainer` is one privileged `/bin/sh -c`
invocation in the container's network namespace, with Self's image, whose
script is the commands joined by ` && `: the sysctl that enables
route_localnet, the POSTROUTING MASQUERADE rule, and then one OUTPUT DNAT
rule per label `connect[<port>]`, in the order the labels are visited, with
`--dport <port>` and `--to-destination <Self IP>:<port>`; nothing else. -/
theorem setupContainer_script (d : Docker) (self : Container) (id : String) (c : Container)
    (hclient : d.newClient = none) (hinspect : d.inspectContainer id = .ok c)
    (hmode : c.NetworkMode = "bridge")
    (hkeys : ∀ kv ∈ c.Labels, (∃ P, IsConnectKey kv.1 P) ∨ ¬ ContainsConnect kv.1) :
    helperRequests (setupContainer d self id).1 =
      [shellRequest c.ID self.Image
        (stringsJoin
          (sysctlCmd :: masqueradeCmd ::
            c.Labels.filterMap
              (fun kv => (declaredPort kv.1).map (fun P => dnatCmd P self.IPAddress)))
          " && ")] ∧
    ∀ k P, declaredPort k = some P ↔ IsConnectKey k P := by
  refine ⟨?_, declaredPort_iff⟩
  rw [setupContainer_requests d self id c hclient hinspect hmode, setupScript,
    setupContainerCmds_declared self.IPAddress c.Labels hkeys]

theorem setupContainer_script_witness :
    helperRequests (setupContainer dockerA selfC "web1").1 =
      [shellRequest web1.ID selfC.Image
        (stringsJoin
          (sysctlCmd :: masqueradeCmd ::
            web1.Labels.filterMap
              (fun kv => (declaredPort kv.1).map (fun P => dnatCmd P selfC.IPAddress)))
          " && ")] ∧
    ∀ k P, declaredPort k = some P ↔ IsConnectKey k P :=
  setupContainer_script dockerA selfC "web1" web1 rfl rfl rfl
    (by
      intro kv hkv
      simp only [web1, List.mem_singleton] at hkv
      subst hkv
      exact Or.inl ⟨"8080", rfl, by decide, by decide⟩)

/-- C6 (as stated, refuted): for the bridge-mode container `api1`, which has
no label, the script handed to the helper is not the sysctl command followed
by one DNAT rule per `connect[<port>]` label (here: by nothing); it is the
sysctl command followed by the POSTROUTING MASQUERADE rule. -/
theorem setupContainer_script_counterexample :
    helperRequests (setupContainer dockerA selfC "api1").1 =
      [shellRequest "api1" "connectable" (sysctlCmd ++ " && " ++ masqueradeCmd)] ∧
    helperRequests (setupContainer dockerA selfC "api1").1 ≠
      [shellRequest "api1" "connectable"
        (stringsJoin
          (sysctlCmd ::
            api1.Labels.filterMap
              (fun kv => (declaredPort kv.1).map (fun P => dnatCmd P selfC.IPAddress)))
          " && ")] := by
  constructor
  · decide
  · decide

/-- C9 (the code at the failing input): the key `xconnect[80]` is not of the
form `connect[<port>]`, yet `setupContainer` installs the DNAT rule for port
80 on its account, while `inspectBackend` finds no backend for port 80 on
that container. -/
theorem setupContainer_substring_key :
    declaredPort "xconnect[80]" = none ∧
    helperRequests (setupContainer dockerS selfC "web3").1 =
      [shellRequest "web3" "connectable"
        (sysctlCmd ++ " && " ++ masqueradeCmd ++ " && " ++ dnatCmd "80" "172.17.0.9")] ∧
    (inspectBackend dockerS "172.17.0.4" "80").2 =
      .error "connect label 'connect[80]' not found: map[xconnect[80]:api1]" := by
  refine ⟨by decide, rfl, rfl⟩

/-- C5 (amended): in per-container setup of a bridge-mode container a failure
of the privileged helper, whether a runtime API error or a non-zero exit
status, is logged and then ends the process, as in self-setup;
`setupContainer` returns normally exactly when the container is not in bridge
mode or the helper succeeded.  A failed descriptor inspect is logged. -/
theorem setupContainer_failure (d : Docker) (self : Container) (id : String)
    (hclient : d.newClient = none) :
    (∀ c, d.inspectContainer id = .ok c → c.NetworkMode = "bridge" →
      ∀ err, (runNetCmd d c.ID self.Image ["/bin/sh", "-c", setupScript self c]).2 = some err →
        (setupContainer d self id).2 = .fatal ∧
          (setupContainer d self id).1.getLast? = some (.log err)) ∧
    (∀ c, d.inspectContainer id = .ok c →
      ((setupContainer d self id).2 = .returned () ↔
        (c.NetworkMode ≠ "bridge" ∨
          (runNetCmd d c.ID self.Image ["/bin/sh", "-c", setupScript self c]).2 = none))) ∧
    (∀ container image cmd err,
      d.createContainer ⟨image, cmd, true, "container:" ++ container⟩ = .error err →
        (runNetCmd d container image cmd).2 = some err) ∧
    (∀ container image cmd cID status,
      d.createContainer ⟨image, cmd, true, "container:" ++ container⟩ = .ok cID →
      d.startContainer cID = none → d.waitContainer cID = .ok status → status ≠ 0 →
        (runNetCmd d container image cmd).2 = some ("non-zero exit: " ++ toString status)) ∧
    (∀ err, d.inspectContainer id = .error err → Event.log err ∈ (setupContainer d self id).1) := by
  refine ⟨?_, ?_, ?_, ?_, ?_⟩
  · intro c hc hmode err herr
    unfold setupScript at herr
    have hrun : setupContainer d self id =
        (([.newClient, .inspectContainer id] ++
          (runNetCmd d c.ID self.Image
            ["/bin/sh", "-c", stringsJoin (setupContainerCmds self.IPAddress c.Labels) " && "]).1)
          ++ [.log err], .fatal) := by
      simp [setupContainer, hclient, hc, hmode, herr]
    rw [hrun]
    exact ⟨rfl, List.getLast?_concat _⟩
  · intro c hc
    by_cases hmode : c.NetworkMode = "bridge"
    · cases herr : (runNetCmd d c.ID self.Image ["/bin/sh", "-c", setupScript self c]).2 with
      | none =>
        unfold setupScript at herr
        simp [setupContainer, hclient, hc, hmode, herr]
      | some err =>
        unfold setupScript at herr
        simp [setupContainer, hclient, hc, hmode, herr]
    · simp [setupContainer, hclient, hc, hmode]
  · intro container image cmd err hcreate
    simp [runNetCmd, hclient, hcreate]
  · intro container image cmd cID status hcreate hstart hwait hstatus
    simp [runNetCmd, hclient, hcreate, hstart, hwait, hstatus]
  · intro err herr
    simp [setupContainer, hclient, herr]

theorem setupContainer_failure_witness :
    dockerFail.newClient = none ∧
    (setupContainer dockerFail selfC "web1").2 = .fatal ∧
    (setupContainer dockerFail selfC "web1").1.getLast? = some (.log "non-zero exit: 1") :=
  ⟨rfl, (setupContainer_failure dockerFail selfC "web1" rfl).1 web1 rfl rfl
    "non-zero exit: 1" rfl⟩

/-- C5 (as stated, refuted): the helper of the bridge-mode container `web1`
exits with status 1, and `setupContainer` does not return normally: it ends
the process through `log.Fatal`. -/
theorem setupContainer_only_logged_counterexample :
    (runNetCmd dockerFail "web1" "connectable" ["/bin/sh", "-c", setupScript selfC web1]).2 =
      some "non-zero exit: 1" ∧
    (setupContainer dockerFail selfC "web1").2 ≠ .returned () ∧
    (setupContainer dockerFail selfC "web1").2 = .fatal := by
  refine ⟨rfl, by decide, rfl⟩

/-- C7: for a descriptor whose network mode is not `bridge`, whatever its
labels, `setupContainer` requests no helper container; its trace holds nothing
but the client creation, the inspect of that container and log lines, so no
command is issued; and with a client it returns normally after the inspect. -/
theorem setupContainer_non_bridge (d : Docker) (self : Container) (id : String) (c : Container)
    (hinspect : d.inspectContainer id = .ok c) (hmode : c.NetworkMode ≠ "bridge") :
    helperRequests (setupContainer d self id).1 = [] ∧
    (∀ e ∈ (setupContainer d self id).1,
      e = .newClient ∨ e = .inspectContainer id ∨ ∃ m, e = .log m) ∧
    (d.newClient = none →
      setupContainer d self id = ([.newClient, .inspectContainer id], .returned ())) := by
  cases hclient : d.newClient with
  | some err => simp [setupContainer, hclient, helperRequests]
  | none => simp [setupContainer, hclient, hinspect, hmode, helperRequests]

theorem setupContainer_non_bridge_witness :
    helperRequests (setupContainer dockerH selfC "host1").1 = [] ∧
    (∀ e ∈ (setupContainer dockerH selfC "host1").1,
      e = .newClient ∨ e = .inspectContainer "host1" ∨ ∃ m, e = .log m) ∧
    (dockerH.newClient = none →
      setupContainer dockerH selfC "host1" =
        ([.newClient, .inspectContainer "host1"], .returned ())) :=
  setupContainer_non_bridge dockerH selfC "host1" hostC rfl (by decide)

/-! ### Startup scan -/

theorem helperRequests_inspects (l : List String) :
    helperRequests (l.map Event.inspectContainer) = [] := by
  induction l with
  | nil => rfl
  | cons a t ih => simp [helperRequests, ih]

theorem mainScanLoop_skip (d : Docker) (HOSTNAME port : String) :
    ∀ (before rest : List String) (self : Option Container),
      (∀ x ∈ before, ∃ c', d.inspectContainer x = .ok c' ∧ c'.Hostname ≠ HOSTNAME) →
      mainScanLoop d HOSTNAME port (before ++ rest) self =
        (before.map Event.inspectContainer ++ (mainScanLoop d HOSTNAME port rest self).1,
          (mainScanLoop d HOSTNAME port rest self).2) := by
  intro before
  induction before with
  | nil => intro rest self _; rfl
  | cons x t ih =>
    intro rest self h
    obtain ⟨c', hc', hne⟩ := h x (List.mem_cons_self _ _)
    have ht : ∀ y ∈ t, ∃ c', d.inspectContainer y = .ok c' ∧ c'.Hostname ≠ HOSTNAME :=
      fun y hy => h y (List.mem_cons_of_mem _ hy)
    simp [mainScanLoop, hc', hne, ih rest self ht]

/-- C10 (amended): when exactly one listed container has the hostname
`HOSTNAME`, the startup scan requests the helper that installs the
PREROUTING redirect to the listening port exactly once, for that container
and with its image, if the container is in bridge mode, and never otherwise;
the scan leaves that container in `self` exactly when the container is not in
bridge mode or the helper succeeded; and when the helper of the bridge-mode
container fails, the error is logged last and the process ends. -/
theorem mainScan_unique_self (d : Docker) (HOSTNAME port : String)
    (before : List String) (id : String) (after : List String) (c : Container)
    (hclient : d.newClient = none)
    (hlist : d.listContainers = .ok (before ++ id :: after))
    (hid : d.inspectContainer id = .ok c) (hhost : c.Hostname = HOSTNAME)
    (hbefore : ∀ x ∈ before, ∃ c', d.inspectContainer x = .ok c' ∧ c'.Hostname ≠ HOSTNAME)
    (hafter : ∀ x ∈ after, ∃ c', d.inspectContainer x = .ok c' ∧ c'.Hostname ≠ HOSTNAME) :
    helperRequests (mainScan d HOSTNAME port).1 =
      (if c.NetworkMode = "bridge" then [shellRequest c.ID c.Image (redirectCmd port)] else []) ∧
    ((mainScan d HOSTNAME port).2 = .returned c ↔
      (c.NetworkMode ≠ "bridge" ∨
        (runNetCmd d c.ID c.Image ["/bin/sh", "-c", redirectCmd port]).2 = none)) ∧
    (c.NetworkMode = "bridge" →
      ∀ err, (runNetCmd d c.ID c.Image ["/bin/sh", "-c", redirectCmd port]).2 = some err →
        (mainScan d HOSTNAME port).2 = .fatal ∧
          (mainScan d HOSTNAME port).1.getLast? = some (.log err)) := by
  have hrest := mainScanLoop_skip d HOSTNAME port after [] (some c) hafter
  rw [List.append_nil] at hrest
  have hloop := mainScanLoop_skip d HOSTNAME port before (id :: after) none hbefore
  have hreq := helperRequests_runNetCmd d c.ID c.Image (redirectCmd port) hclient
  by_cases hmode : c.NetworkMode = "bridge"
  · cases herr : (runNetCmd d c.ID c.Image ["/bin/sh", "-c", redirectCmd port]).2 with
    | some err =>
      have hstep : mainScanLoop d HOSTNAME port (id :: after) none =
          ([.inspectContainer id, .stdout ("Self: " ++ c.ID ++ " " ++ c.NetworkMode)] ++
            (runNetCmd d c.ID c.Image ["/bin/sh", "-c", redirectCmd port]).1 ++ [.log err],
            .fatal) := by
        simp [mainScanLoop, hid, hhost, hmode, herr]
      rw [hstep] at hloop
      have hmain : mainScan d HOSTNAME port =
          ((.newClient :: .listContainers ::
            (before.map Event.inspectContainer ++
              ([.inspectContainer id, .stdout ("Self: " ++ c.ID ++ " " ++ c.NetworkMode)] ++
                (runNetCmd d c.ID c.Image ["/bin/sh", "-c", redirectCmd port]).1))) ++
            [.log err], .fatal) := by
        simp only [mainScan, hclient, hlist, hloop]
        simp
      rw [hmain, if_pos hmode]
      refine ⟨?_, ?_, ?_⟩
      · simp [helperRequests, helperRequests_append, helperRequests_inspects, hreq]
      · simp [hmode]
      · intro _ err' herr'
        cases herr'
        exact ⟨rfl, List.getLast?_concat _⟩
    | none =>
      have hstep : mainScanLoop d HOSTNAME port (id :: after) none =
          ([.inspectContainer id, .stdout ("Self: " ++ c.ID ++ " " ++ c.NetworkMode)] ++
            (runNetCmd d c.ID c.Image ["/bin/sh", "-c", redirectCmd port]).1 ++
            after.map Event.inspectContainer, .returned (some c)) := by
        simp [mainScanLoop, hid, hhost, hmode, herr, hrest]
      rw [hstep] at hloop
      have hmain : mainScan d HOSTNAME port =
          (.newClient :: .listContainers ::
            (before.map Event.inspectContainer ++
              ([.inspectContainer id, .stdout ("Self: " ++ c.ID ++ " " ++ c.NetworkMode)] ++
                (runNetCmd d c.ID c.Image ["/bin/sh", "-c", redirectCmd port]).1 ++
                after.map Event.inspectContainer)), .returned c) := by
        simp only [mainScan, hclient, hlist, hloop]
      rw [hmain, if_pos hmode]
      refine ⟨?_, ?_, ?_⟩
      · simp [helperRequests, helperRequests_append, helperRequests_inspects, hreq]
      · simp
      · intro _ err' herr'
        cases herr'
  · have hstep : mainScanLoop d HOSTNAME port (id :: after) none =
        ([.inspectContainer id, .stdout ("Self: " ++ c.ID ++ " " ++ c.NetworkMode)] ++
          after.map Event.inspectContainer, .returned (some c)) := by
      simp [mainScanLoop, hid, hhost, hmode, hrest]
    rw [hstep] at hloop
    have hmain : mainScan d HOSTNAME port =
        (.newClient :: .listContainers ::
          (before.map Event.inspectContainer ++
            ([.inspectContainer id, .stdout ("Self: " ++ c.ID ++ " " ++ c.NetworkMode)] ++
              after.map Event.inspectContainer)), .returned c) := by
      simp only [mainScan, hclient, hlist, hloop]
    rw [hmain, if_neg hmode]
    refine ⟨?_, ?_, ?_⟩
    · simp [helperRequests, helperRequests_append, helperRequests_inspects]
    · simp [hmode]
    · intro hb
      exact absurd hb hmode

theorem mainScan_unique_self_witness :
    helperRequests (mainScan dockerPFail "proxy" "10000").1 =
      (if selfC.NetworkMode = "bridge" then
        [shellRequest selfC.ID selfC.Image (redirectCmd "10000")] else []) ∧
    ((mainScan dockerPFail "proxy" "10000").2 = .returned selfC ↔
      (selfC.NetworkMode ≠ "bridge" ∨
        (runNetCmd dockerPFail selfC.ID selfC.Image
          ["/bin/sh", "-c", redirectCmd "10000"]).2 = none)) ∧
    (mainScan dockerPFail "proxy" "10000").2 = .fatal ∧
    (mainScan dockerPFail "proxy" "10000").1.getLast? = some (.log "non-zero exit: 1") :=
  have h := mainScan_unique_self dockerPFail "proxy" "10000" ["web1"] "proxy" ["api1"] selfC
    rfl rfl rfl rfl
    (by
      intro x hx
      simp only [List.mem_singleton] at hx
      subst hx
      exact ⟨web1, rfl, by decide⟩)
    (by
      intro x hx
      simp only [List.mem_singleton] at hx
      subst hx
      exact ⟨api1, rfl, by decide⟩)
  ⟨h.1, h.2.1, h.2.2 rfl "non-zero exit: 1" rfl⟩

/-- C10 (as stated, refuted): two listed containers have the hostname
`proxy`, both in bridge mode; the scan records the second one as Self and
requests the PREROUTING redirect helper twice, once for each, not exactly
once. -/
theorem mainScan_duplicate_hostname_counterexample :
    (mainScan dockerDup "proxy" "10000").2 = .returned proxy2 ∧
    proxy2.NetworkMode = "bridge" ∧
    helperRequests (mainScan dockerDup "proxy" "10000").1 =
      [shellRequest "p1" "connectable" (redirectCmd "10000"),
        shellRequest "p2" "connectable" (redirectCmd "10000")] ∧
    (helperRequests (mainScan dockerDup "proxy" "10000").1).length ≠ 1 := by
  refine ⟨rfl, rfl, rfl, by decide⟩

end Connectable
